import Mathlib

/-
Verification of the presenter-agent repository.

Shallow embedding of:
  src/modules/concurrency_control_orchestrator.py  (generation gate, hint
    history, conversation assembly, think-act loop of handle_text)
  src/modules/presentation_tool_provider.py        (tool dispatcher)

Python wall-clock times are modelled as rationals; Python strings are Lean
strings, with the Python operations (strip, code-point comparison) defined
structurally over the character list so that everything evaluates inside
the kernel.
-/

namespace Presenter

/-! ## Python string primitives -/

/-- Whitespace set of the Python str.strip default (ASCII part; the exotic
Unicode space characters are not produced anywhere in this code base). -/
def pyIsSpace (c : Char) : Bool :=
  c = ' ' || c = '\t' || c = '\n' || c = '\x0d' || c = '\x0b' || c = '\x0c'

/-- Python str.strip(): remove leading and trailing whitespace. -/
def pyStrip (s : String) : String :=
  ⟨(((s.data.dropWhile pyIsSpace).reverse.dropWhile pyIsSpace)).reverse⟩

/-- Code-point lexicographic comparison of character lists, the order that
Python uses when comparing strings. -/
def charListLe : List Char → List Char → Bool
  | [], _ => true
  | _ :: _, [] => false
  | a :: as, b :: bs =>
    if a < b then true
    else if b < a then false
    else charListLe as bs

/-- Python string comparison a <= b (code-point lexicographic). -/
def pyLe (a b : String) : Prop := charListLe a.data b.data = true

instance : DecidableRel pyLe := fun a b =>
  inferInstanceAs (Decidable (charListLe a.data b.data = true))

theorem charListLe_total : ∀ as bs, charListLe as bs = true ∨ charListLe bs as = true := by
  intro as
  induction as with
  | nil => intro bs; left; rfl
  | cons a as ih =>
    intro bs
    cases bs with
    | nil => right; rfl
    | cons b bs =>
      rcases lt_trichotomy a b with h | h | h
      · left; simp [charListLe, h]
      · subst h
        rcases ih bs with h2 | h2
        · left; simp [charListLe, lt_irrefl, h2]
        · right; simp [charListLe, lt_irrefl, h2]
      · right; simp [charListLe, h, not_lt_of_gt h]

theorem charListLe_trans :
    ∀ as bs cs, charListLe as bs = true → charListLe bs cs = true →
      charListLe as cs = true := by
  intro as
  induction as with
  | nil => intro bs cs _ _; rfl
  | cons a as ih =>
    intro bs cs hab hbc
    cases bs with
    | nil => simp [charListLe] at hab
    | cons b bs =>
      cases cs with
      | nil => simp [charListLe] at hbc
      | cons c cs =>
        simp only [charListLe] at hab hbc ⊢
        rcases lt_trichotomy a b with h1 | h1 | h1
        · rcases lt_trichotomy b c with h2 | h2 | h2
          · simp [lt_trans h1 h2]
          · subst h2; simp [h1]
          · simp [h2, not_lt_of_gt h2] at hbc
        · subst h1
          rcases lt_trichotomy a c with h2 | h2 | h2
          · simp [h2]
          · subst h2
            simp [lt_irrefl] at hab hbc ⊢
            exact ih _ _ hab hbc
          · simp [h2, not_lt_of_gt h2] at hbc
        · simp [h1, not_lt_of_gt h1] at hab

theorem charListLe_antisymm :
    ∀ as bs, charListLe as bs = true → charListLe bs as = true → as = bs := by
  intro as
  induction as with
  | nil =>
    intro bs _ hba
    cases bs with
    | nil => rfl
    | cons b bs => simp [charListLe] at hba
  | cons a as ih =>
    intro bs hab hba
    cases bs with
    | nil => simp [charListLe] at hab
    | cons b bs =>
      simp only [charListLe] at hab hba
      rcases lt_trichotomy a b with h1 | h1 | h1
      · simp [h1, not_lt_of_gt h1] at hba
      · subst h1
        simp [lt_irrefl] at hab hba
        rw [ih _ hab hba]
      · simp [h1, not_lt_of_gt h1] at hab

instance : IsTotal String pyLe :=
  ⟨fun a b => charListLe_total a.data b.data⟩

instance : IsTrans String pyLe :=
  ⟨fun _ _ _ hab hbc => charListLe_trans _ _ _ hab hbc⟩

instance : IsAntisymm String pyLe :=
  ⟨fun _ _ hab hba => String.ext (charListLe_antisymm _ _ hab hba)⟩

/-- Python sorted() on a list of strings: stable sort by code-point order. -/
def pySorted (l : List String) : List String := List.insertionSort pyLe l

theorem pySorted_eq_of_perm {l l' : List String} (h : l.Perm l') :
    pySorted l = pySorted l' :=
  List.eq_of_perm_of_sorted
    (((List.perm_insertionSort pyLe l).trans h).trans
      (List.perm_insertionSort pyLe l').symm)
    (List.sorted_insertionSort pyLe l)
    (List.sorted_insertionSort pyLe l')

/-! ## Generation gate
Source: concurrency_control_orchestrator.py, lines 31-32, 79-80, 85-102.
The shared class variable is the gate state; an invocation record is the
local instance variable of one handle_text call.  Wall-clock readings of
time.time() are explicit rational inputs. -/

/-- The process-wide class variable _global_invocation_time. -/
structure GateState where
  globalTime : ℚ
  deriving DecidableEq, Repr

/-- The per-invocation instance variable _local_invocation_time. -/
structure Invocation where
  localTime : ℚ
  deriving DecidableEq, Repr

/-- Source: _update_invocation_times (lines 85-90).  Both the global class
variable and the local instance variable are set to the current wall-clock
reading, which is passed in explicitly as now. -/
def update_invocation_times (_s : GateState) (now : ℚ) : GateState × Invocation :=
  ({ globalTime := now }, { localTime := now })

/-- Source: _check_concurrency_conflict (lines 92-102):
conflict = global_invocation_time > local_invocation_time. -/
def check_concurrency_conflict (globalTime localTime : ℚ) : Bool :=
  decide (globalTime > localTime)

/-- A sequence of invocation starts: each element of ts is the wall-clock
reading observed by one call of _update_invocation_times, in program order.
Returns the final gate state and the invocation records handed out. -/
def run_gate_begins (s : GateState) : List ℚ → GateState × List Invocation
  | [] => (s, [])
  | t :: ts =>
    let p := update_invocation_times s t
    let q := run_gate_begins p.1 ts
    (q.1, p.2 :: q.2)

theorem run_gate_begins_tokens (s : GateState) (ts : List ℚ) :
    (run_gate_begins s ts).2.map Invocation.localTime = ts := by
  induction ts generalizing s with
  | nil => rfl
  | cons t ts ih => simp [run_gate_begins, update_invocation_times, ih]

theorem run_gate_begins_final (s : GateState) (ts : List ℚ) :
    (run_gate_begins s ts).1.globalTime = ts.getLastD s.globalTime := by
  induction ts generalizing s with
  | nil => rfl
  | cons t ts ih =>
    simp only [run_gate_begins, update_invocation_times]
    rw [ih]
    cases ts <;> simp [List.getLastD]

/-! ## Hint history
Source: concurrency_control_orchestrator.py, lines 34-36, 116-178.
The class-level list _hint_usage_history; the lock only serialises the
append-and-trim critical section, so the sequential list semantics below
is exactly the behaviour of any interleaving of appends. -/

/-- One entry of _hint_usage_history (lines 128-133). -/
structure HintEntry where
  text : String
  timestamp : String
  time : ℚ
  slide : String
  deriving DecidableEq, Repr

/-- Entry construction in _add_hint_to_history: the slide field is
slide_route or the placeholder when slide_route is None or empty
(Python falsiness of the or-expression). -/
def mk_hint_entry (hintText : String) (slideRoute : Option String)
    (t : ℚ) (ts : String) : HintEntry :=
  { text := hintText
    timestamp := ts
    time := t
    slide :=
      match slideRoute with
      | none => "[Unknown]"
      | some s => if s = "" then "[Unknown]" else s }

/-- Source: _add_hint_to_history (lines 116-144): append the entry, then
keep only the last 50 entries when the length exceeds 50. -/
def add_hint_to_history (history : List HintEntry) (e : HintEntry) : List HintEntry :=
  let h := history ++ [e]
  if h.length > 50 then h.drop (h.length - 50) else h

/-- The hints surfaced by _get_hint_usage_context (lines 158-165): the last
10 retained entries, iterated in reversed order (most recent first). -/
def surfaced_hints (history : List HintEntry) : List HintEntry :=
  (history.drop (history.length - 10)).reverse

/-- Display form of one surfaced hint (lines 166-172), with the
100-character truncation. -/
def hint_display_line (h : HintEntry) : String :=
  let displayText :=
    if h.text.length > 100 then ⟨h.text.data.take 100⟩ ++ "..." else h.text
  "  - " ++ h.timestamp ++ " | Slide: " ++ h.slide ++ " | Hint: " ++ displayText

/-- Source: _get_hint_usage_context (lines 146-178). -/
def get_hint_usage_context (history : List HintEntry) : String :=
  if history.isEmpty then
    "HINT USAGE HISTORY: No hints have been provided yet."
  else
    String.intercalate "\n"
      (["HINT USAGE HISTORY:",
        "Total hints provided: " ++ Nat.repr history.length,
        "Recent hints (most recent first):"] ++
        (surfaced_hints history).map hint_display_line)

theorem add_hint_length_le (history : List HintEntry) (e : HintEntry)
    (h : history.length ≤ 50) : (add_hint_to_history history e).length ≤ 50 := by
  simp only [add_hint_to_history]
  split
  · simp only [List.length_drop]
    omega
  · simp only [List.length_append, List.length_singleton] at *
    omega

theorem foldl_add_hint (es : List HintEntry) :
    ∀ init : List HintEntry, init.length ≤ 50 →
      es.foldl add_hint_to_history init =
        (init ++ es).drop ((init ++ es).length - 50) := by
  induction es with
  | nil =>
    intro init h
    simp only [List.foldl_nil, List.append_nil]
    rw [Nat.sub_eq_zero_of_le h, List.drop_zero]
  | cons e es ih =>
    intro init h
    simp only [List.foldl_cons]
    by_cases hc : init.length + 1 ≤ 50
    · have hstep : add_hint_to_history init e = init ++ [e] := by
        simp only [add_hint_to_history, List.length_append, List.length_singleton]
        rw [if_neg (by omega)]
      rw [hstep, ih _ (by simp; omega)]
      simp only [List.append_assoc, List.singleton_append]
    · have h50 : init.length = 50 := by omega
      have hstep : add_hint_to_history init e = (init ++ [e]).drop 1 := by
        simp only [add_hint_to_history, List.length_append, List.length_singleton, h50]
        norm_num
      rw [hstep, ih _ (by simp [h50])]
      have h1 : (init ++ [e]).drop 1 ++ es = (init ++ e :: es).drop 1 := by
        rw [List.drop_append_of_le_length (by omega),
          List.drop_append_of_le_length (by omega)]
        simp
      rw [h1, List.drop_drop]
      congr 1
      simp only [List.length_drop, List.length_append, List.length_singleton,
        List.length_cons, h50]
      omega

/-! ## LLM message model
Shallow embedding of the xaibo LLM message data used by the orchestrator:
LLMRole, LLMMessageContentType, LLMMessageContent, LLMMessage, tool calls
and tool results.  Python None and an absent list are both modelled by the
empty list where the code only tests truthiness. -/

inductive LLMRole where
  | system
  | user
  | assistant
  | function
  deriving DecidableEq, Repr

inductive LLMMessageContentType where
  | text
  | image
  deriving DecidableEq, Repr

structure LLMMessageContent where
  type : LLMMessageContentType
  text : Option String
  deriving DecidableEq, Repr

/-- A Python value as it appears in a tool-call argument dictionary. -/
inductive PValue where
  | pstr (s : String)
  | pint (n : ℤ)
  | pbool (b : Bool)
  | pnone
  deriving DecidableEq, Repr

/-- Python truthiness of a PValue. -/
def PValue.truthy : PValue → Bool
  | .pstr s => s ≠ ""
  | .pint n => n ≠ 0
  | .pbool b => b
  | .pnone => false

/-- The arguments of a tool call: a dictionary in the normal case, but the
orchestrator also tolerates a bare string (line 486-487). -/
inductive ToolArgsModel where
  | dict (entries : List (String × PValue))
  | str (s : String)
  deriving DecidableEq, Repr

structure ToolCallModel where
  id : String
  name : String
  arguments : ToolArgsModel
  deriving DecidableEq, Repr

structure LLMFunctionResult where
  id : String
  name : String
  content : String
  deriving DecidableEq, Repr

structure LLMMessage where
  role : LLMRole
  content : List LLMMessageContent
  toolCalls : List ToolCallModel
  toolResults : List LLMFunctionResult
  deriving DecidableEq, Repr

/-- LLMMessage.user(text). -/
def LLMMessage.user (s : String) : LLMMessage :=
  { role := .user
    content := [{ type := .text, text := some s }]
    toolCalls := []
    toolResults := [] }

/-- LLMMessage.system(text). -/
def LLMMessage.system (s : String) : LLMMessage :=
  { role := .system
    content := [{ type := .text, text := some s }]
    toolCalls := []
    toolResults := [] }

/-! ## Collapsing consecutive user messages
Source: concurrency_control_orchestrator.py, lines 298-360. -/

/-- The text fragments collected by _create_concatenated_user_message
(lines 350-354): for every message in order, every content part whose type
is TEXT and whose text is truthy (not None, not empty) contributes its
stripped text. -/
def collected_user_texts (ms : List LLMMessage) : List String :=
  (ms.map fun m =>
    m.content.filterMap fun c =>
      if c.type = LLMMessageContentType.text then
        match c.text with
        | some t => if t = "" then none else some (pyStrip t)
        | none => none
      else none).flatten

/-- Source: _create_concatenated_user_message (lines 336-360).  A single
message is returned unchanged; two or more are merged into one user
message whose text joins the collected stripped texts with blank lines. -/
def create_concatenated_user_message (userMessages : List LLMMessage) : LLMMessage :=
  match userMessages with
  | [m] => m
  | _ => LLMMessage.user (String.intercalate "\n\n" (collected_user_texts userMessages))

/-- The for-loop of _concatenate_consecutive_user_messages (lines 311-334):
result accumulator plus the buffer of consecutive user messages. -/
def concat_loop : List LLMMessage → List LLMMessage → List LLMMessage → List LLMMessage
  | [], result, current =>
    if current.isEmpty then result
    else result ++ [create_concatenated_user_message current]
  | m :: ms, result, current =>
    if m.role = LLMRole.user then
      concat_loop ms result (current ++ [m])
    else
      let result :=
        if current.isEmpty then result
        else result ++ [create_concatenated_user_message current]
      concat_loop ms (result ++ [m]) []

/-- Source: _concatenate_consecutive_user_messages (lines 298-334). -/
def concatenate_consecutive_user_messages (messages : List LLMMessage) : List LLMMessage :=
  if messages.isEmpty then messages else concat_loop messages [] []

theorem length_dropWhile_le {α : Type} (p : α → Bool) (l : List α) :
    (l.dropWhile p).length ≤ l.length := by
  induction l with
  | nil => simp [List.dropWhile]
  | cons a l ih =>
    simp only [List.dropWhile]
    split
    · exact Nat.le_succ_of_le ih
    · simp

/-- Does this message have the user role. -/
def is_user_message (m : LLMMessage) : Bool := m.role = LLMRole.user

/-- Modelled from the claim, amended: replace every maximal run of two or
more consecutive user messages by the single concatenated user message;
leave a run of exactly one user message unchanged; keep all other messages
in place.  Stated as a direct structural recursion over maximal runs. -/
def collapse_by_runs : List LLMMessage → List LLMMessage
  | [] => []
  | m :: ms =>
    if is_user_message m then
      create_concatenated_user_message (m :: ms.takeWhile is_user_message) ::
        collapse_by_runs (ms.dropWhile is_user_message)
    else
      m :: collapse_by_runs ms
termination_by l => l.length
decreasing_by
  · simp only [List.length_cons]
    exact Nat.lt_succ_of_le (length_dropWhile_le _ _)
  · simp

theorem collapse_by_runs_nil : collapse_by_runs [] = [] := by
  rw [collapse_by_runs]

theorem collapse_by_runs_cons_user {m : LLMMessage} (l : List LLMMessage)
    (h : is_user_message m = true) :
    collapse_by_runs (m :: l) =
      create_concatenated_user_message (m :: l.takeWhile is_user_message) ::
        collapse_by_runs (l.dropWhile is_user_message) := by
  rw [collapse_by_runs, if_pos h]

theorem collapse_by_runs_cons_other {m : LLMMessage} (l : List LLMMessage)
    (h : ¬ is_user_message m = true) :
    collapse_by_runs (m :: l) = m :: collapse_by_runs l := by
  rw [collapse_by_runs, if_neg h]

theorem takeWhile_append_all {α : Type} {p : α → Bool} :
    ∀ {c : List α} (l : List α), (∀ x ∈ c, p x = true) →
      (c ++ l).takeWhile p = c ++ l.takeWhile p := by
  intro c
  induction c with
  | nil => intro l _; rfl
  | cons a c ih =>
    intro l hc
    simp only [List.cons_append, List.takeWhile_cons, hc a (by simp)]
    rw [if_pos trivial, ih l fun x hx => hc x (by simp [hx])]

theorem dropWhile_append_all {α : Type} {p : α → Bool} :
    ∀ {c : List α} (l : List α), (∀ x ∈ c, p x = true) →
      (c ++ l).dropWhile p = l.dropWhile p := by
  intro c
  induction c with
  | nil => intro l _; rfl
  | cons a c ih =>
    intro l hc
    simp only [List.cons_append, List.dropWhile_cons, hc a (by simp)]
    rw [if_pos trivial, ih l fun x hx => hc x (by simp [hx])]

theorem concat_loop_eq_collapse :
    ∀ (msgs result current : List LLMMessage),
      (∀ m ∈ current, is_user_message m = true) →
      concat_loop msgs result current = result ++ collapse_by_runs (current ++ msgs) := by
  intro msgs
  induction msgs with
  | nil =>
    intro result current hc
    cases current with
    | nil => simp [concat_loop, collapse_by_runs_nil]
    | cons c cs =>
      have hcs : ∀ x ∈ cs, is_user_message x = true := fun x hx => hc x (by simp [hx])
      have h1 : cs.takeWhile is_user_message = cs := by
        simpa using takeWhile_append_all (p := is_user_message) ([] : List LLMMessage) hcs
      have h2 : cs.dropWhile is_user_message = [] := by
        simpa using dropWhile_append_all (p := is_user_message) ([] : List LLMMessage) hcs
      simp only [List.append_nil]
      rw [show concat_loop [] result (c :: cs) =
        result ++ [create_concatenated_user_message (c :: cs)] from by simp [concat_loop]]
      rw [collapse_by_runs_cons_user cs (hc c (by simp)), h1, h2, collapse_by_runs_nil]
  | cons m ms ih =>
    intro result current hc
    by_cases hm : m.role = LLMRole.user
    · have hm' : is_user_message m = true := by simp [is_user_message, hm]
      rw [show concat_loop (m :: ms) result current =
        concat_loop ms result (current ++ [m]) from by simp [concat_loop, hm]]
      rw [ih result (current ++ [m]) ?_]
      · simp
      · intro x hx
        rcases List.mem_append.mp hx with h | h
        · exact hc x h
        · simp only [List.mem_singleton] at h
          subst h
          exact hm'
    · have hm' : ¬ is_user_message m = true := by simp [is_user_message, hm]
      cases current with
      | nil =>
        rw [show concat_loop (m :: ms) result [] =
          concat_loop ms (result ++ [m]) [] from by simp [concat_loop, hm]]
        rw [ih (result ++ [m]) [] (by simp)]
        simp only [List.nil_append]
        rw [collapse_by_runs_cons_other ms hm']
        simp
      | cons c cs =>
        have hcs : ∀ x ∈ cs, is_user_message x = true := fun x hx => hc x (by simp [hx])
        rw [show concat_loop (m :: ms) result (c :: cs) =
          concat_loop ms ((result ++ [create_concatenated_user_message (c :: cs)]) ++ [m]) []
          from by simp [concat_loop, hm]]
        rw [ih _ [] (by simp)]
        simp only [List.nil_append]
        rw [show ((c :: cs) ++ m :: ms) = c :: (cs ++ m :: ms) from rfl]
        rw [collapse_by_runs_cons_user _ (hc c (by simp))]
        rw [takeWhile_append_all (m :: ms) hcs, dropWhile_append_all (m :: ms) hcs]
        rw [show (m :: ms).takeWhile is_user_message = [] from by
          simp [List.takeWhile_cons, hm']]
        rw [show (m :: ms).dropWhile is_user_message = m :: ms from by
          simp [List.dropWhile_cons, hm']]
        rw [collapse_by_runs_cons_other ms hm']
        simp

theorem concatenate_eq_collapse (msgs : List LLMMessage) :
    concatenate_consecutive_user_messages msgs = collapse_by_runs msgs := by
  cases msgs with
  | nil => simp [concatenate_consecutive_user_messages, collapse_by_runs_nil]
  | cons m ms =>
    rw [show concatenate_consecutive_user_messages (m :: ms) = concat_loop (m :: ms) [] []
      from by simp [concatenate_consecutive_user_messages]]
    rw [concat_loop_eq_collapse (m :: ms) [] [] (by simp)]
    simp

/-! ## Tool dispatcher
Source: presentation_tool_provider.py.  The presentation manager state it
reads (routes, current route, websocket handle) is a snapshot record; the
outward side effects (goto command, spoken text, hint message) are
collected in an effect list. -/

/-- The result value of a successful tool: a message string, or the
route-to-content dictionary of get_all_slide_details. -/
inductive ToolResultValue where
  | str (s : String)
  | contentDict (entries : List (String × Option String))
  deriving DecidableEq, Repr

/-- xaibo ToolResult: success flag plus optional result and error. -/
structure ToolResult where
  success : Bool
  result : Option ToolResultValue
  error : Option String
  deriving DecidableEq, Repr

/-- Failure result with only an error message. -/
def ToolResult.fail (e : String) : ToolResult :=
  { success := false, result := none, error := some e }

/-- Source: _create_success_result (lines 179-191). -/
def create_success_result (message : String) : ToolResult :=
  { success := true, result := some (.str message), error := none }

/-- Snapshot of the PresentationWebSocketManager state read by the tools. -/
structure ManagerState where
  currentRoute : Option String
  routes : List String
  websocketConnected : Bool
  slideContents : List (String × Option String)
  deriving DecidableEq, Repr

/-- Outward side effects of tool execution. -/
inductive ProviderEffect where
  | gotoRoute (route : String)
  | respondText (text : String)
  | sendHint (text : String)
  deriving DecidableEq, Repr

/-- The type tags used for isinstance checks; only str is used by this
provider, and __name__ of the tag. -/
inductive PType where
  | str
  | int
  deriving DecidableEq, Repr

def PType.typeName : PType → String
  | .str => "str"
  | .int => "int"

/-- Python isinstance for the modelled values (bool is a subclass of int). -/
def PValue.isinstance : PValue → PType → Bool
  | .pstr _, .str => true
  | .pint _, .int => true
  | .pbool _, .int => true
  | _, _ => false

/-- Source: _validate_required_parameter (lines 109-134). -/
def validate_required_parameter (parameters : List (String × PValue))
    (paramName : String) (paramType : PType) : Option ToolResult :=
  match parameters.lookup paramName with
  | none => some (ToolResult.fail ("Missing required parameter: " ++ paramName))
  | some v =>
    if v.isinstance paramType then none
    else some (ToolResult.fail
      ("Parameter \x27" ++ paramName ++ "\x27 must be a " ++ paramType.typeName))

/-- Extract the string payload of a parameter that passed str validation. -/
def lookup_str (parameters : List (String × PValue)) (paramName : String) : String :=
  match parameters.lookup paramName with
  | some (.pstr s) => s
  | _ => ""

/-- Source: _validate_websocket_connection (lines 136-147). -/
def validate_websocket_connection (st : ManagerState) : Option ToolResult :=
  if st.websocketConnected then none
  else some (ToolResult.fail "WebSocket not connected. Cannot navigate to slide.")

/-- Source: _validate_routes_available (lines 149-161): get_all_routes with
an error when the list is empty. -/
def validate_routes_available (st : ManagerState) : Option ToolResult × List String :=
  if st.routes.isEmpty then
    (some (ToolResult.fail "No routes available. Presentation may not be connected."),
      [])
  else (none, st.routes)

/-- Source: _get_route_index_and_target (lines 193-228): sort the routes,
find the index of the current route, step by direction, check bounds. -/
def get_route_index_and_target (currentRoute : String) (availableRoutes : List String)
    (direction : ℤ) : Option ToolResult × String :=
  let sortedRoutes := pySorted availableRoutes
  match sortedRoutes.indexOf? currentRoute with
  | none =>
    (some (ToolResult.fail
      ("Current route \x27" ++ currentRoute ++ "\x27 not found in available routes.")),
      "")
  | some currentIndex =>
    let targetIndex : ℤ := (currentIndex : ℤ) + direction
    if direction > 0 ∧ targetIndex ≥ (sortedRoutes.length : ℤ) then
      (some (ToolResult.fail "Already at the last slide. Cannot navigate to next slide."),
        "")
    else if direction < 0 ∧ targetIndex < 0 then
      (some (ToolResult.fail "Already at the first slide. Cannot navigate to previous slide."),
        "")
    else
      (none, (sortedRoutes.get? targetIndex.toNat).getD "")

/-- Direction name used in messages of _execute_navigation. -/
def direction_name (direction : ℤ) : String :=
  if direction > 0 then "next" else "previous"

/-- Source: _execute_navigation (lines 230-278). -/
def execute_navigation (st : ManagerState) (direction : ℤ) :
    ToolResult × List ProviderEffect :=
  let currentRoute := st.currentRoute
  match (validate_routes_available st).1 with
  | some err => (err, [])
  | none =>
    let availableRoutes := (validate_routes_available st).2
    match if currentRoute = some "" then none else currentRoute with
    | none =>
      (ToolResult.fail
        ("Current route is unknown. Cannot determine " ++ direction_name direction ++
          " slide."), [])
    | some current =>
      match validate_websocket_connection st with
      | some _ =>
        (ToolResult.fail
          ("WebSocket not connected. Cannot navigate to " ++ direction_name direction ++
            " slide."), [])
      | none =>
        match (get_route_index_and_target current availableRoutes direction).1 with
        | some err => (err, [])
        | none =>
          let targetRoute := (get_route_index_and_target current availableRoutes direction).2
          (create_success_result
            ("Successfully navigated to " ++ direction_name direction ++ " slide: " ++
              targetRoute),
            [ProviderEffect.gotoRoute targetRoute])

/-- Source: _execute_goto_slide (lines 280-321). -/
def execute_goto_slide (st : ManagerState) (parameters : List (String × PValue)) :
    ToolResult × List ProviderEffect :=
  match validate_required_parameter parameters "route" PType.str with
  | some err => (err, [])
  | none =>
    let route := lookup_str parameters "route"
    match (validate_routes_available st).1 with
    | some err => (err, [])
    | none =>
      let availableRoutes := (validate_routes_available st).2
      if route ∈ availableRoutes then
        match validate_websocket_connection st with
        | some err => (err, [])
        | none =>
          (create_success_result ("Successfully navigated to slide: " ++ route),
            [ProviderEffect.gotoRoute route])
      else
        (ToolResult.fail
          ("Route \x27" ++ route ++ "\x27 not found. Available routes: " ++
            String.intercalate ", " availableRoutes), [])

/-- Source: _execute_say (lines 345-370). -/
def execute_say (parameters : List (String × PValue)) :
    ToolResult × List ProviderEffect :=
  match validate_required_parameter parameters "text" PType.str with
  | some err => (err, [])
  | none =>
    let text := lookup_str parameters "text"
    (create_success_result ("Successfully said: " ++ text),
      [ProviderEffect.respondText text])

/-- Source: _execute_hint (lines 372-405). -/
def execute_hint (st : ManagerState) (parameters : List (String × PValue)) :
    ToolResult × List ProviderEffect :=
  match validate_required_parameter parameters "text" PType.str with
  | some err => (err, [])
  | none =>
    let text := lookup_str parameters "text"
    match validate_websocket_connection st with
    | some _ =>
      (ToolResult.fail "WebSocket not connected. Cannot send hint.", [])
    | none =>
      (create_success_result ("Successfully sent hint: " ++ text),
        [ProviderEffect.sendHint text])

/-- Source: _execute_get_all_slide_details (lines 407-434). -/
def execute_get_all_slide_details (st : ManagerState) :
    ToolResult × List ProviderEffect :=
  if st.slideContents.isEmpty then
    (ToolResult.fail
      "No slide contents available. Presentation may not be connected or no slides loaded.",
      [])
  else
    ({ success := true, result := some (.contentDict st.slideContents), error := none },
      [])

/-- Source: execute_tool (lines 81-107): dispatch by tool name, with the
unknown-tool failure in the final else. -/
def execute_tool (st : ManagerState) (toolName : String)
    (parameters : List (String × PValue)) : ToolResult × List ProviderEffect :=
  if toolName = "goto_slide" then execute_goto_slide st parameters
  else if toolName = "next_slide" then execute_navigation st 1
  else if toolName = "previous_slide" then execute_navigation st (-1)
  else if toolName = "say" then execute_say parameters
  else if toolName = "hint" then execute_hint st parameters
  else if toolName = "get_all_slide_details" then execute_get_all_slide_details st
  else (ToolResult.fail ("Unknown tool: " ++ toolName), [])

/-- xaibo ToolParameter (type, description, required). -/
structure ToolParameter where
  type : String
  description : String
  required : Bool
  deriving DecidableEq, Repr

/-- xaibo Tool (name, description, parameter dictionary). -/
structure Tool where
  name : String
  description : String
  parameters : List (String × ToolParameter)
  deriving DecidableEq, Repr

/-- Source: list_tools (lines 28-79): the six exposed tools. -/
def list_tools : List Tool :=
  [{ name := "goto_slide"
     description := "Navigate to a specific slide/route in the presentation"
     parameters := [("route",
       { type := "string"
         description :=
           "The route/path of the slide to navigate to (e.g., \x27/00-cover\x27, \x27/01-intro\x27)"
         required := true })] },
   { name := "next_slide"
     description := "Navigate to the next slide in the presentation sequence"
     parameters := [] },
   { name := "previous_slide"
     description := "Navigate to the previous slide in the presentation sequence"
     parameters := [] },
   { name := "say"
     description :=
       "Say something out loud. Only use this tool if the agent has been spoken to directly."
     parameters := [("text",
       { type := "string"
         description := "The text to say out loud"
         required := true })] },
   { name := "hint"
     description := "Provide a hint to the user about content they should discuss"
     parameters := [("text",
       { type := "string"
         description := "The hint text to display"
         required := true })] },
   { name := "get_all_slide_details"
     description := "Retrieve the content/details of all slides in the presentation"
     parameters := [] }]

/-! ## Orchestration loop
Source: concurrency_control_orchestrator.py, handle_text (lines 362-553).
One invocation is run against oracles for its collaborators: the language
model, the injected tool provider (which may also raise, modelled by
Except), and the shared generation counter as read at each conflict-check
point (other invocations may overwrite it at any time, so the value at the
k-th check of this invocation is an arbitrary function of k).  The
user-visible behaviour is recorded as an event trace: model calls (with
the conversation sent and whether the tool catalog was passed), conflict
checks (with their outcome), tool executions, hint-history appends, and
respond_text calls. -/

structure LLMResponseModel where
  content : String
  toolCalls : List ToolCallModel
  deriving DecidableEq, Repr

inductive Event where
  | modelCall (conversation : List LLMMessage) (functionsEnabled : Bool)
  | conflictCheck (index : Nat) (conflict : Bool)
  | toolExec (name : String)
  | hintTracked (text : PValue) (slide : Option String)
  | respond (text : String)
  deriving DecidableEq, Repr

structure Oracles where
  llm : List LLMMessage → Bool → LLMResponseModel
  execTool : String → ToolArgsModel → Except String ToolResult
  globalAt : Nat → ℚ
  currentSlide : Option String

/-- Minimal JSON string escaping (quotes and backslashes; control-character
escapes are not needed by any claim). -/
def json_escape (s : String) : String :=
  ⟨s.data.foldr (fun c acc => if c = '"' ∨ c = '\\' then '\\' :: c :: acc else c :: acc) []⟩

def json_dumps_value : ToolResultValue → String
  | .str s => "\"" ++ json_escape s ++ "\""
  | .contentDict entries =>
    "\x7b" ++
      String.intercalate ", " (entries.map fun e =>
        "\"" ++ json_escape e.1 ++ "\": " ++
          (match e.2 with
           | none => "null"
           | some c => "\"" ++ json_escape c ++ "\"")) ++ "\x7d"

/-- json.dumps of the tool result payload (line 514). -/
def json_dumps : Option ToolResultValue → String
  | none => "null"
  | some v => json_dumps_value v

/-- Python str() of an optional string, as used by the f-string on
line 521 (None prints as the four letters). -/
def py_str_opt : Option String → String
  | some s => s
  | none => "None"

/-- dict.get(key, default empty string), line 485. -/
def dict_get (entries : List (String × PValue)) (key : String) : PValue :=
  (entries.lookup key).getD (.pstr "")

/-- Python or: first truthy operand. -/
def py_or (a b : PValue) : PValue := if a.truthy then a else b

/-- Hint text extraction of lines 483-487. -/
def extract_hint_text : ToolArgsModel → PValue
  | .dict entries =>
    py_or (dict_get entries "text") (py_or (dict_get entries "hint") (dict_get entries "message"))
  | .str s => .pstr s

/-- The system note of line 440. -/
def max_tools_note : LLMMessage :=
  LLMMessage.system "Maximum tool usage reached. Tools Unavailable"

/-- The assistant message appended after each model call (lines 457-465). -/
def assistant_message (resp : LLMResponseModel) : LLMMessage :=
  { role := if resp.toolCalls.isEmpty then LLMRole.assistant else LLMRole.function
    content := [{ type := .text, text := some resp.content }]
    toolCalls := resp.toolCalls
    toolResults := [] }

/-- The aggregated tool-result message (lines 531-540). -/
def function_results_message (rs : List LLMFunctionResult) : LLMMessage :=
  { role := .function, content := [], toolCalls := [], toolResults := rs }

/-- The code after the while loop (lines 546-553): final conflict check,
then respond_text of the empty string on both paths. -/
def final_events (o : Oracles) (localTime : ℚ) (k : Nat) : List Event :=
  [Event.conflictCheck k (check_concurrency_conflict (o.globalAt k) localTime),
    Event.respond ""]

/-- The per-tool-call loop of lines 472-529.  Arguments: remaining tool
calls and the index of the next conflict check; result: events, collected
tool results, next check index, and whether the invocation aborted.  An
exception from execute_tool skips the conflict check (the check sits after
the call inside the try block) and records an error entry. -/
def hint_events (o : Oracles) (tc : ToolCallModel) (tr : ToolResult) : List Event :=
  if tc.name = "hint" ∧ tr.success ∧ (extract_hint_text tc.arguments).truthy then
    [Event.hintTracked (extract_hint_text tc.arguments) o.currentSlide]
  else []

/-- The tool-result entry appended for one executed call (lines 510-522). -/
def tool_result_entry (tc : ToolCallModel) (tr : ToolResult) : LLMFunctionResult :=
  if tr.success then
    { id := tc.id, name := tc.name, content := json_dumps tr.result }
  else
    { id := tc.id, name := tc.name, content := "Error: " ++ py_str_opt tr.error }

def run_tool_calls (o : Oracles) (localTime : ℚ) :
    List ToolCallModel → Nat → List Event × List LLMFunctionResult × Nat × Bool
  | [], k => ([], [], k, false)
  | tc :: rest, k =>
    match o.execTool tc.name tc.arguments with
    | .error e =>
      let r := run_tool_calls o localTime rest k
      ([Event.toolExec tc.name] ++ r.1,
        { id := tc.id, name := tc.name, content := "Error: " ++ e } :: r.2.1,
        r.2.2.1, r.2.2.2)
    | .ok tr =>
      if check_concurrency_conflict (o.globalAt k) localTime then
        ([Event.toolExec tc.name] ++ hint_events o tc tr ++
          [Event.conflictCheck k true, Event.respond ""], [], k + 1, true)
      else
        let r := run_tool_calls o localTime rest (k + 1)
        ([Event.toolExec tc.name] ++ hint_events o tc tr ++
          [Event.conflictCheck k false] ++ r.1,
          tool_result_entry tc tr :: r.2.1, r.2.2.1, r.2.2.2)

/-- Lines 438-440: on the final allowed iteration (remaining budget after
the increment is zero) the system note is appended first. -/
def iteration_conversation (remaining : Nat) (conversation : List LLMMessage) :
    List LLMMessage :=
  if remaining = 0 then conversation ++ [max_tools_note] else conversation

/-- Lines 443-446: the tool catalog is passed except on the final allowed
iteration. -/
def functions_enabled (remaining : Nat) : Bool := decide (0 < remaining)

/-- The while loop of lines 435-544, indexed by the remaining iteration
budget max_thoughts - thoughts (so the pattern remaining = 0 corresponds
to the exhausted while condition, and inside an iteration remaining = 0
of the decremented budget is exactly thoughts == max_thoughts). -/
def run_loop (o : Oracles) (localTime : ℚ) :
    Nat → Nat → List LLMMessage → List Event
  | 0, k, _ => final_events o localTime k
  | remaining + 1, k, conversation =>
    let conversation1 := iteration_conversation remaining conversation
    let resp := o.llm conversation1 (functions_enabled remaining)
    if check_concurrency_conflict (o.globalAt k) localTime then
      [Event.modelCall conversation1 (functions_enabled remaining),
        Event.conflictCheck k true, Event.respond ""]
    else
      let conversation2 := conversation1 ++ [assistant_message resp]
      if 0 < remaining ∧ resp.toolCalls.isEmpty = false then
        let r := run_tool_calls o localTime resp.toolCalls (k + 1)
        if r.2.2.2 then
          Event.modelCall conversation1 (functions_enabled remaining) ::
            Event.conflictCheck k false :: r.1
        else
          Event.modelCall conversation1 (functions_enabled remaining) ::
            Event.conflictCheck k false ::
              (r.1 ++ run_loop o localTime remaining r.2.2.1
                (conversation2 ++ [function_results_message r.2.1]))
      else
        Event.modelCall conversation1 (functions_enabled remaining) ::
          Event.conflictCheck k false :: final_events o localTime (k + 1)

/-- Conversation assembly of lines 381-428, with the collaborator-provided
strings (transcription-file content, slide context, elapsed time, hint
context) passed in; empty system prompt and empty transcription are the
falsy cases of the source conditionals. -/
def assemble_conversation (systemPrompt transcription slideContext
    elapsedTimeContext hintContext : String) (history : List LLMMessage)
    (text : String) : List LLMMessage :=
  let conversation := concatenate_consecutive_user_messages history
  let conversation :=
    if systemPrompt ≠ "" then conversation.insertIdx 0 (LLMMessage.system systemPrompt)
    else conversation
  let conversation :=
    if transcription ≠ "" then
      conversation.insertIdx (if systemPrompt ≠ "" then 1 else 0)
        (LLMMessage.user transcription)
    else conversation
  let conversation :=
    conversation.insertIdx
      (if systemPrompt ≠ "" then (if transcription ≠ "" then 2 else 1)
       else (if transcription ≠ "" then 1 else 0))
      (LLMMessage.system slideContext)
  let conversation :=
    conversation.insertIdx
      (if systemPrompt ≠ "" then (if transcription ≠ "" then 3 else 2)
       else (if transcription ≠ "" then 2 else 1))
      (LLMMessage.system elapsedTimeContext)
  let conversation :=
    conversation.insertIdx
      (if systemPrompt ≠ "" then (if transcription ≠ "" then 4 else 3)
       else (if transcription ≠ "" then 3 else 2))
      (LLMMessage.system hintContext)
  conversation ++ [LLMMessage.user text]

/-- One whole invocation of handle_text: _update_invocation_times stamps
localTime into the shared counter and the local variable, the conversation
is assembled, and the think-act loop runs. -/
def handle_text_events (o : Oracles) (systemPrompt transcription slideContext
    elapsedTimeContext hintContext : String) (history : List LLMMessage)
    (text : String) (maxThoughts : Nat) (localTime : ℚ) : List Event :=
  run_loop o localTime maxThoughts 0
    (assemble_conversation systemPrompt transcription slideContext
      elapsedTimeContext hintContext history text)

/-! ## Trace lemmas for the orchestration loop -/

/-- After any successful (true) conflict check in the trace, the only
remaining event is the empty response. -/
def tail_after_true (l : List Event) : Prop :=
  ∀ xs i ys, l = xs ++ Event.conflictCheck i true :: ys → ys = [Event.respond ""]

theorem tail_after_true_nil : tail_after_true [] := by
  intro xs i ys h
  have := congrArg List.length h
  simp only [List.length_nil, List.length_append, List.length_cons] at this
  omega

theorem tail_after_true_cons {a : Event} {l : List Event}
    (ha : ∀ i, a ≠ Event.conflictCheck i true) (h : tail_after_true l) :
    tail_after_true (a :: l) := by
  intro xs i ys heq
  cases xs with
  | nil =>
    simp only [List.nil_append, List.cons.injEq] at heq
    exact absurd heq.1 (ha i)
  | cons x xs =>
    simp only [List.cons_append, List.cons.injEq] at heq
    exact h xs i ys heq.2

theorem tail_after_true_append {l₁ l₂ : List Event}
    (h1 : ∀ i, Event.conflictCheck i true ∉ l₁) (h2 : tail_after_true l₂) :
    tail_after_true (l₁ ++ l₂) := by
  induction l₁ with
  | nil => simpa using h2
  | cons a l ih =>
    rw [List.cons_append]
    refine tail_after_true_cons (fun i hai => ?_) (ih fun i => ?_)
    · exact h1 i (hai ▸ List.mem_cons_self a l)
    · exact fun hm => h1 i (List.mem_cons_of_mem a hm)

theorem tail_after_true_terminal (i : Nat) (b : Bool) :
    tail_after_true [Event.conflictCheck i b, Event.respond ""] := by
  intro xs j ys heq
  match xs with
  | [] =>
    simp only [List.nil_append, List.cons.injEq] at heq
    exact heq.2.symm
  | [x] =>
    simp only [List.cons_append, List.nil_append, List.cons.injEq] at heq
    exact absurd heq.2.1 (by simp)
  | x :: y :: rest =>
    have := congrArg List.length heq
    simp only [List.length_cons, List.length_append, List.length_nil,
      List.cons_append] at this
    omega

theorem hint_events_no_check (o : Oracles) (tc : ToolCallModel) (tr : ToolResult)
    (i : Nat) (b : Bool) : Event.conflictCheck i b ∉ hint_events o tc tr := by
  rw [hint_events]
  split <;> simp

theorem hint_events_no_respond (o : Oracles) (tc : ToolCallModel) (tr : ToolResult)
    (s : String) : Event.respond s ∉ hint_events o tc tr := by
  rw [hint_events]
  split <;> simp

theorem run_tool_calls_check_val (o : Oracles) (localTime : ℚ) :
    ∀ (tcs : List ToolCallModel) (k : Nat) (i : Nat) (b : Bool),
      Event.conflictCheck i b ∈ (run_tool_calls o localTime tcs k).1 →
      b = check_concurrency_conflict (o.globalAt i) localTime := by
  intro tcs
  induction tcs with
  | nil => intro k i b h; simp [run_tool_calls] at h
  | cons tc rest ih =>
    intro k i b h
    rw [run_tool_calls] at h
    rcases hexec : o.execTool tc.name tc.arguments with e | tr
    · rw [hexec] at h
      dsimp only at h
      simp only [List.mem_append, List.mem_singleton] at h
      rcases h with h | h
      · exact absurd h (by simp)
      · exact ih k i b h
    · rw [hexec] at h
      dsimp only at h
      by_cases hc : check_concurrency_conflict (o.globalAt k) localTime = true
      · rw [if_pos hc] at h
        simp only [List.mem_append, List.mem_singleton, List.mem_cons] at h
        rcases h with (h | h) | h | h
        · exact absurd h (by simp)
        · exact absurd h (hint_events_no_check o tc tr i b)
        · obtain ⟨rfl, rfl⟩ : i = k ∧ b = true := by
            simpa [Event.conflictCheck.injEq] using h
          exact hc.symm
        · simp at h
      · rw [if_neg hc] at h
        dsimp only at h
        simp only [List.mem_append, List.mem_singleton] at h
        rcases h with ((h | h) | h) | h
        · exact absurd h (by simp)
        · exact absurd h (hint_events_no_check o tc tr i b)
        · obtain ⟨rfl, rfl⟩ : i = k ∧ b = false := by
            simpa [Event.conflictCheck.injEq] using h
          simp only [Bool.not_eq_true] at hc
          exact hc.symm
        · exact ih (k + 1) i b h

theorem run_tool_calls_no_true (o : Oracles) (localTime : ℚ) :
    ∀ (tcs : List ToolCallModel) (k : Nat),
      (run_tool_calls o localTime tcs k).2.2.2 = false →
      ∀ i, Event.conflictCheck i true ∉ (run_tool_calls o localTime tcs k).1 := by
  intro tcs
  induction tcs with
  | nil => intro k _ i hmem; simp [run_tool_calls] at hmem
  | cons tc rest ih =>
    intro k hab i hmem
    rw [run_tool_calls] at hab hmem
    rcases hexec : o.execTool tc.name tc.arguments with e | tr
    · rw [hexec] at hab hmem
      dsimp only at hab hmem
      simp only [List.mem_append, List.mem_singleton] at hmem
      rcases hmem with h | h
      · exact absurd h (by simp)
      · exact ih k hab i h
    · rw [hexec] at hab hmem
      dsimp only at hab hmem
      by_cases hc : check_concurrency_conflict (o.globalAt k) localTime = true
      · rw [if_pos hc] at hab
        simp at hab
      · rw [if_neg hc] at hab hmem
        dsimp only at hab hmem
        simp only [List.mem_append, List.mem_singleton] at hmem
        rcases hmem with ((h | h) | h) | h
        · exact absurd h (by simp)
        · exact absurd h (hint_events_no_check o tc tr i true)
        · have : check_concurrency_conflict (o.globalAt k) localTime = true ∧ i = k := by
            constructor
            · have := (Event.conflictCheck.injEq i true k false).mp h
              exact absurd this.2 (by simp)
            · exact ((Event.conflictCheck.injEq i true k false).mp h).1
          exact absurd this.1 hc
        · exact ih (k + 1) hab i h

theorem run_tool_calls_tail (o : Oracles) (localTime : ℚ) :
    ∀ (tcs : List ToolCallModel) (k : Nat),
      tail_after_true (run_tool_calls o localTime tcs k).1 := by
  intro tcs
  induction tcs with
  | nil =>
    intro k
    rw [run_tool_calls]
    exact tail_after_true_nil
  | cons tc rest ih =>
    intro k
    rw [run_tool_calls]
    rcases hexec : o.execTool tc.name tc.arguments with e | tr
    · dsimp only
      refine tail_after_true_append (fun i hmem => ?_) (ih k)
      simp at hmem
    · dsimp only
      by_cases hc : check_concurrency_conflict (o.globalAt k) localTime = true
      · rw [if_pos hc]
        dsimp only
        refine tail_after_true_append (fun i hmem => ?_) (tail_after_true_terminal k true)
        simp only [List.mem_append, List.mem_singleton] at hmem
        rcases hmem with h | h
        · exact absurd h (by simp)
        · exact hint_events_no_check o tc tr i true h
      · rw [if_neg hc]
        dsimp only
        refine tail_after_true_append (fun i hmem => ?_) (ih (k + 1))
        simp only [List.mem_append, List.mem_singleton] at hmem
        rcases hmem with (h | h) | h
        · exact absurd h (by simp)
        · exact hint_events_no_check o tc tr i true h
        · have := (Event.conflictCheck.injEq i true k false).mp h
          exact absurd this.2 (by simp)

theorem run_tool_calls_ends (o : Oracles) (localTime : ℚ) :
    ∀ (tcs : List ToolCallModel) (k : Nat),
      (run_tool_calls o localTime tcs k).2.2.2 = true →
      ∃ zs, (run_tool_calls o localTime tcs k).1 = zs ++ [Event.respond ""] := by
  intro tcs
  induction tcs with
  | nil => intro k hab; simp [run_tool_calls] at hab
  | cons tc rest ih =>
    intro k hab
    rw [run_tool_calls] at hab ⊢
    rcases hexec : o.execTool tc.name tc.arguments with e | tr
    · rw [hexec] at hab
      dsimp only at hab ⊢
      obtain ⟨zs, hzs⟩ := ih k hab
      exact ⟨[Event.toolExec tc.name] ++ zs, by rw [hzs]; simp⟩
    · rw [hexec] at hab
      dsimp only at hab ⊢
      by_cases hc : check_concurrency_conflict (o.globalAt k) localTime = true
      · rw [if_pos hc]
        exact ⟨[Event.toolExec tc.name] ++ hint_events o tc tr ++
          [Event.conflictCheck k true], by simp⟩
      · rw [if_neg hc] at hab ⊢
        dsimp only at hab ⊢
        obtain ⟨zs, hzs⟩ := ih (k + 1) hab
        exact ⟨[Event.toolExec tc.name] ++ hint_events o tc tr ++
          [Event.conflictCheck k false] ++ zs, by rw [hzs]; simp⟩

theorem run_tool_calls_respond_empty (o : Oracles) (localTime : ℚ) :
    ∀ (tcs : List ToolCallModel) (k : Nat) (s : String),
      Event.respond s ∈ (run_tool_calls o localTime tcs k).1 → s = "" := by
  intro tcs
  induction tcs with
  | nil => intro k s h; simp [run_tool_calls] at h
  | cons tc rest ih =>
    intro k s h
    rw [run_tool_calls] at h
    rcases hexec : o.execTool tc.name tc.arguments with e | tr
    · rw [hexec] at h
      dsimp only at h
      simp only [List.mem_append, List.mem_singleton] at h
      rcases h with h | h
      · exact absurd h (by simp)
      · exact ih k s h
    · rw [hexec] at h
      dsimp only at h
      by_cases hc : check_concurrency_conflict (o.globalAt k) localTime = true
      · rw [if_pos hc] at h
        simp only [List.mem_append, List.mem_singleton, List.mem_cons] at h
        rcases h with (h | h) | h | h
        · exact absurd h (by simp)
        · exact absurd h (hint_events_no_respond o tc tr s)
        · exact absurd h (by simp)
        · simpa [Event.respond.injEq] using h
      · rw [if_neg hc] at h
        dsimp only at h
        simp only [List.mem_append, List.mem_singleton] at h
        rcases h with ((h | h) | h) | h
        · exact absurd h (by simp)
        · exact absurd h (hint_events_no_respond o tc tr s)
        · exact absurd h (by simp)
        · exact ih (k + 1) s h

theorem run_loop_check_val (o : Oracles) (localTime : ℚ) :
    ∀ (remaining k : Nat) (conv : List LLMMessage) (i : Nat) (b : Bool),
      Event.conflictCheck i b ∈ run_loop o localTime remaining k conv →
      b = check_concurrency_conflict (o.globalAt i) localTime := by
  intro remaining
  induction remaining with
  | zero =>
    intro k conv i b h
    rw [run_loop, final_events] at h
    simp only [List.mem_cons, List.not_mem_nil, or_false] at h
    rcases h with h | h
    · obtain ⟨rfl, rfl⟩ : i = k ∧ b = check_concurrency_conflict (o.globalAt k) localTime := by
        simpa [Event.conflictCheck.injEq] using h
      rfl
    · exact absurd h (by simp)
  | succ remaining ih =>
    intro k conv i b h
    rw [run_loop] at h
    dsimp only at h
    split at h
    · rename_i hc
      simp only [List.mem_cons, List.not_mem_nil, or_false] at h
      rcases h with h | h | h
      · exact absurd h (by simp)
      · obtain ⟨rfl, rfl⟩ : i = k ∧ b = true := by
          simpa [Event.conflictCheck.injEq] using h
        exact hc.symm
      · exact absurd h (by simp)
    · rename_i hc
      have hcf : check_concurrency_conflict (o.globalAt k) localTime = false := by
        simpa using hc
      split at h
      · split at h
        · simp only [List.mem_cons] at h
          rcases h with h | h | h
          · exact absurd h (by simp)
          · obtain ⟨rfl, rfl⟩ : i = k ∧ b = false := by
              simpa [Event.conflictCheck.injEq] using h
            exact hcf.symm
          · exact run_tool_calls_check_val o localTime _ _ i b h
        · simp only [List.mem_cons, List.mem_append] at h
          rcases h with h | h | h | h
          · exact absurd h (by simp)
          · obtain ⟨rfl, rfl⟩ : i = k ∧ b = false := by
              simpa [Event.conflictCheck.injEq] using h
            exact hcf.symm
          · exact run_tool_calls_check_val o localTime _ _ i b h
          · exact ih _ _ i b h
      · rw [final_events] at h
        simp only [List.mem_cons, List.not_mem_nil, or_false] at h
        rcases h with h | h | h | h
        · exact absurd h (by simp)
        · obtain ⟨rfl, rfl⟩ : i = k ∧ b = false := by
            simpa [Event.conflictCheck.injEq] using h
          exact hcf.symm
        · obtain ⟨rfl, rfl⟩ :
            i = k + 1 ∧ b = check_concurrency_conflict (o.globalAt (k + 1)) localTime := by
            simpa [Event.conflictCheck.injEq] using h
          rfl
        · exact absurd h (by simp)

theorem run_loop_tail (o : Oracles) (localTime : ℚ) :
    ∀ (remaining k : Nat) (conv : List LLMMessage),
      tail_after_true (run_loop o localTime remaining k conv) := by
  intro remaining
  induction remaining with
  | zero =>
    intro k conv
    rw [run_loop, final_events]
    exact tail_after_true_terminal k _
  | succ remaining ih =>
    intro k conv
    rw [run_loop]
    dsimp only
    split
    · refine tail_after_true_cons (fun i => by simp) ?_
      exact tail_after_true_terminal k true
    · rename_i hc
      split
      · split
        · refine tail_after_true_cons (fun i => by simp) ?_
          refine tail_after_true_cons (fun i => by simp) ?_
          exact run_tool_calls_tail o localTime _ _
        · rename_i hab
          refine tail_after_true_cons (fun i => by simp) ?_
          refine tail_after_true_cons (fun i => by simp) ?_
          exact tail_after_true_append
            (fun i => run_tool_calls_no_true o localTime _ _ (by simpa using hab) i)
            (ih _ _)
      · refine tail_after_true_cons (fun i => by simp) ?_
        refine tail_after_true_cons (fun i => by simp) ?_
        rw [final_events]
        exact tail_after_true_terminal (k + 1) _

theorem run_loop_ends (o : Oracles) (localTime : ℚ) :
    ∀ (remaining k : Nat) (conv : List LLMMessage),
      ∃ zs, run_loop o localTime remaining k conv = zs ++ [Event.respond ""] := by
  intro remaining
  induction remaining with
  | zero =>
    intro k conv
    rw [run_loop, final_events]
    exact ⟨[Event.conflictCheck k (check_concurrency_conflict (o.globalAt k) localTime)],
      by simp⟩
  | succ remaining ih =>
    intro k conv
    rw [run_loop]
    dsimp only
    split
    · rename_i hc
      exact ⟨[Event.modelCall (iteration_conversation remaining conv)
        (functions_enabled remaining), Event.conflictCheck k true], by simp⟩
    · rename_i hc
      split
      · split
        · rename_i hab
          obtain ⟨zs, hzs⟩ := run_tool_calls_ends o localTime _ _ hab
          exact ⟨Event.modelCall (iteration_conversation remaining conv)
            (functions_enabled remaining) :: Event.conflictCheck k false :: zs,
            by rw [hzs]; simp⟩
        · obtain ⟨zs, hzs⟩ := ih _ _
          refine ⟨Event.modelCall (iteration_conversation remaining conv)
            (functions_enabled remaining) :: Event.conflictCheck k false ::
            ((run_tool_calls o localTime
              (o.llm (iteration_conversation remaining conv)
                (functions_enabled remaining)).toolCalls (k + 1)).1 ++ zs), ?_⟩
          rw [hzs]
          simp
      · rw [final_events]
        exact ⟨Event.modelCall (iteration_conversation remaining conv)
          (functions_enabled remaining) :: Event.conflictCheck k false ::
          [Event.conflictCheck (k + 1)
            (check_concurrency_conflict (o.globalAt (k + 1)) localTime)], by simp⟩

theorem run_loop_respond_empty (o : Oracles) (localTime : ℚ) :
    ∀ (remaining k : Nat) (conv : List LLMMessage) (s : String),
      Event.respond s ∈ run_loop o localTime remaining k conv → s = "" := by
  intro remaining
  induction remaining with
  | zero =>
    intro k conv s h
    rw [run_loop, final_events] at h
    simp only [List.mem_cons, List.not_mem_nil, or_false] at h
    rcases h with h | h
    · exact absurd h (by simp)
    · simpa [Event.respond.injEq] using h
  | succ remaining ih =>
    intro k conv s h
    rw [run_loop] at h
    dsimp only at h
    split at h
    · simp only [List.mem_cons, List.not_mem_nil, or_false] at h
      rcases h with h | h | h
      · exact absurd h (by simp)
      · exact absurd h (by simp)
      · simpa [Event.respond.injEq] using h
    · split at h
      · split at h
        · simp only [List.mem_cons] at h
          rcases h with h | h | h
          · exact absurd h (by simp)
          · exact absurd h (by simp)
          · exact run_tool_calls_respond_empty o localTime _ _ s h
        · simp only [List.mem_cons, List.mem_append] at h
          rcases h with h | h | h | h
          · exact absurd h (by simp)
          · exact absurd h (by simp)
          · exact run_tool_calls_respond_empty o localTime _ _ s h
          · exact ih _ _ s h
      · rw [final_events] at h
        simp only [List.mem_cons, List.not_mem_nil, or_false] at h
        rcases h with h | h | h | h
        · exact absurd h (by simp)
        · exact absurd h (by simp)
        · exact absurd h (by simp)
        · simpa [Event.respond.injEq] using h

/-! ## Claims about the generation gate (C1, C2, C3) -/

/-- Claim C2 counterexample.  The counter is fed by wall-clock readings
(time.time()), which the code does not force to be distinct or increasing.
Invocation A begins at clock value 1 and invocation B begins strictly
afterwards but with the same clock reading 1 (a tie): B's update leaves the
counter at a value that is not strictly greater than the value it
previously held.  With readings 5 then 3 (clock regress) the counter even
decreases. -/
theorem C2_counterexample :
    ¬ ((update_invocation_times (update_invocation_times ⟨0⟩ 1).1 1).1.globalTime >
        (update_invocation_times ⟨0⟩ 1).1.globalTime) ∧
      (update_invocation_times (update_invocation_times ⟨0⟩ 5).1 3).1.globalTime <
        (update_invocation_times ⟨0⟩ 5).1.globalTime := by
  constructor
  · simp [update_invocation_times]
  · simp [update_invocation_times]
    norm_num

/-- Claim C2 (amended): provided the successive wall-clock readings of the
begin calls are strictly increasing and start above the current counter
value, the shared Generation Counter strictly increases at every begin
(hence never decreases and always exceeds every value it previously held),
the tokens handed out are exactly those strictly increasing readings
(hence distinct and ordered), and the final counter value is the last
reading. -/
theorem C2_theorem (s : GateState) (ts : List ℚ)
    (h : List.Chain (· < ·) s.globalTime ts) :
    (s.globalTime :: (run_gate_begins s ts).2.map Invocation.localTime).Pairwise (· < ·) ∧
      (run_gate_begins s ts).1.globalTime = ts.getLastD s.globalTime := by
  constructor
  · rw [run_gate_begins_tokens]
    exact List.chain_iff_pairwise.mp h
  · exact run_gate_begins_final s ts

theorem C2_witness :
    ((⟨0⟩ : GateState).globalTime ::
        (run_gate_begins ⟨0⟩ [1, 2]).2.map Invocation.localTime).Pairwise (· < ·) ∧
      (run_gate_begins (⟨0⟩ : GateState) [1, 2]).1.globalTime =
        ([1, 2] : List ℚ).getLastD (⟨0⟩ : GateState).globalTime :=
  C2_theorem ⟨0⟩ [1, 2]
    (List.Chain.cons (by decide) (List.Chain.cons (by decide) List.Chain.nil))

/-- Claim C1 counterexample.  Invocation A begins at clock reading 1;
invocation B begins strictly later but reads the same wall-clock value 1
(the tie that time.time() permits) and updates the shared counter.  A's
subsequent conflict check then returns false, not true: the claim fails as
stated because the invocation token is only the clock reading, which does
not order invocations that observe equal readings. -/
theorem C1_counterexample :
    check_concurrency_conflict
        (update_invocation_times (update_invocation_times ⟨0⟩ 1).1 1).1.globalTime
        (update_invocation_times (⟨0⟩ : GateState) 1).2.localTime = false := by
  decide

/-- Claim C1 (amended): if from conflict-check index j onward the shared
counter always strictly exceeds this invocation A's token value — which is
the situation once an invocation B with a strictly larger clock reading
has updated the counter and no later update takes it back below A's token
— then every conflict check of A from index j on returns true, and the
only trace event A produces after such a check is the single empty
response: no further model call, no tool execution, no non-empty output. -/
theorem C1_theorem (o : Oracles) (systemPrompt transcription slideContext
    elapsedTimeContext hintContext : String) (history : List LLMMessage)
    (text : String) (maxThoughts : Nat) (localTime : ℚ) (j : Nat)
    (hB : ∀ i, j ≤ i → localTime < o.globalAt i) :
    ∀ xs i b ys,
      handle_text_events o systemPrompt transcription slideContext elapsedTimeContext
          hintContext history text maxThoughts localTime =
        xs ++ Event.conflictCheck i b :: ys →
      j ≤ i → b = true ∧ ys = [Event.respond ""] := by
  intro xs i b ys heq hji
  rw [handle_text_events] at heq
  have hmem : Event.conflictCheck i b ∈
      run_loop o localTime maxThoughts 0
        (assemble_conversation systemPrompt transcription slideContext
          elapsedTimeContext hintContext history text) := by
    rw [heq]
    simp
  have hb : b = check_concurrency_conflict (o.globalAt i) localTime :=
    run_loop_check_val o localTime maxThoughts 0 _ i b hmem
  have hbt : b = true := by
    rw [hb, check_concurrency_conflict]
    exact decide_eq_true (hB i hji)
  subst hbt
  exact ⟨rfl, run_loop_tail o localTime maxThoughts 0 _ xs i ys heq⟩

theorem C1_witness :
    true = true ∧ [Event.respond ""] = [Event.respond ""] :=
  C1_theorem
    (Oracles.mk (fun _ _ => ⟨"", []⟩) (fun _ _ => .ok ⟨true, none, none⟩)
      (fun _ => 1) none)
    "" "" "sc" "et" "hc" [] "hi" 1 0 0 (fun _ _ => (by decide : (0 : ℚ) < 1))
    [Event.modelCall [LLMMessage.system "sc", LLMMessage.system "et",
      LLMMessage.system "hc", LLMMessage.user "hi", max_tools_note] false]
    0 true [Event.respond ""] (by decide) (by decide)

/-- Claim C3: the conflict check returns true exactly when the shared
counter strictly exceeds the token value, and immediately after a begin
with no interleaved invocation (the gate state produced by
_update_invocation_times itself) it returns false. -/
theorem C3_theorem :
    (∀ globalTime localTime : ℚ,
      check_concurrency_conflict globalTime localTime = true ↔ localTime < globalTime) ∧
    ∀ (s : GateState) (now : ℚ),
      check_concurrency_conflict (update_invocation_times s now).1.globalTime
        (update_invocation_times s now).2.localTime = false := by
  constructor
  · intro g l
    simp [check_concurrency_conflict]
  · intro s now
    simp [update_invocation_times, check_concurrency_conflict]

/-! ## Effect shapes of the tool executors -/

theorem execute_goto_slide_effects (st : ManagerState)
    (params : List (String × PValue)) :
    ∀ e ∈ (execute_goto_slide st params).2, ∃ r, e = ProviderEffect.gotoRoute r := by
  intro e he
  rw [execute_goto_slide] at he
  dsimp only at he
  by_cases hmem : lookup_str params "route" ∈ (validate_routes_available st).2
  · rw [if_pos hmem] at he
    repeat' split at he
    all_goals simp at he
    all_goals exact ⟨_, he⟩
  · rw [if_neg hmem] at he
    repeat' split at he
    all_goals simp at he

theorem execute_navigation_effects (st : ManagerState) (direction : ℤ) :
    ∀ e ∈ (execute_navigation st direction).2, ∃ r, e = ProviderEffect.gotoRoute r := by
  intro e he
  rw [execute_navigation] at he
  repeat' split at he
  all_goals try simp at he
  rename_i x1 h1 sr cur hcur x2 h2
  rcases hg : (get_route_index_and_target cur (validate_routes_available st).2 direction).1
    with _ | err
  · rw [hg] at he
    dsimp only at he
    simp at he
    exact ⟨_, he⟩
  · rw [hg] at he
    dsimp only at he
    simp at he

theorem execute_say_effects (params : List (String × PValue)) :
    ∀ e ∈ (execute_say params).2,
      e = ProviderEffect.respondText (lookup_str params "text") := by
  intro e he
  rw [execute_say] at he
  repeat' split at he
  all_goals simp at he
  all_goals exact he

theorem execute_hint_effects (st : ManagerState) (params : List (String × PValue)) :
    ∀ e ∈ (execute_hint st params).2, ∃ t, e = ProviderEffect.sendHint t := by
  intro e he
  rw [execute_hint] at he
  repeat' split at he
  all_goals simp at he
  all_goals exact ⟨_, he⟩

theorem execute_get_all_slide_details_effects (st : ManagerState) :
    (execute_get_all_slide_details st).2 = [] := by
  rw [execute_get_all_slide_details]
  split <;> rfl

/-! ## Claim C4 -/

/-- Claim C4: on every path of handle_text (normal completion, cap exit,
or conflict abort at any check point) every respond_text the loop itself
issues carries exactly the empty string, and the trace always ends with
that empty response; non-empty speech can arise only from the say tool,
whose execution is the sole producer of respond effects in the tool
dispatcher. -/
theorem C4_theorem (o : Oracles) (systemPrompt transcription slideContext
    elapsedTimeContext hintContext : String) (history : List LLMMessage)
    (text : String) (maxThoughts : Nat) (localTime : ℚ) :
    (∀ s, Event.respond s ∈ handle_text_events o systemPrompt transcription
        slideContext elapsedTimeContext hintContext history text maxThoughts localTime →
      s = "") ∧
    (∃ zs, handle_text_events o systemPrompt transcription slideContext
        elapsedTimeContext hintContext history text maxThoughts localTime =
      zs ++ [Event.respond ""]) ∧
    (∀ (st : ManagerState) (toolName : String) (params : List (String × PValue))
        (t : String),
      ProviderEffect.respondText t ∈ (execute_tool st toolName params).2 →
      toolName = "say" ∧ t = lookup_str params "text") := by
  refine ⟨?_, ?_, ?_⟩
  · intro s h
    rw [handle_text_events] at h
    exact run_loop_respond_empty o localTime _ _ _ s h
  · rw [handle_text_events]
    exact run_loop_ends o localTime _ _ _
  · intro st toolName params t h
    rw [execute_tool] at h
    split at h
    · obtain ⟨r, hr⟩ := execute_goto_slide_effects st params _ h
      simp at hr
    · split at h
      · obtain ⟨r, hr⟩ := execute_navigation_effects st 1 _ h
        simp at hr
      · split at h
        · obtain ⟨r, hr⟩ := execute_navigation_effects st (-1) _ h
          simp at hr
        · split at h
          · rename_i hname
            have := execute_say_effects params _ h
            simp only [ProviderEffect.respondText.injEq] at this
            exact ⟨hname, this⟩
          · split at h
            · obtain ⟨u, hu⟩ := execute_hint_effects st params _ h
              simp at hu
            · split at h
              · rw [execute_get_all_slide_details_effects] at h
                simp at h
              · simp at h

theorem C4_witness :
    ("" : String) = "" ∧
      ("say" = "say" ∧ "hello" = lookup_str [("text", PValue.pstr "hello")] "text") :=
  ⟨(C4_theorem (Oracles.mk (fun _ _ => ⟨"", []⟩) (fun _ _ => .ok ⟨true, none, none⟩)
        (fun _ => 1) none) "" "" "sc" "et" "hc" [] "hi" 1 0).1 "" (by decide),
    (C4_theorem (Oracles.mk (fun _ _ => ⟨"", []⟩) (fun _ _ => .ok ⟨true, none, none⟩)
        (fun _ => 1) none) "" "" "sc" "et" "hc" [] "hi" 1 0).2.2
      (ManagerState.mk none [] false []) "say" [("text", PValue.pstr "hello")] "hello"
      (by decide)⟩

/-! ## Claim C5 -/

theorem get_route_index_and_target_perm {routes routes' : List String}
    (h : routes.Perm routes') (current : String) (direction : ℤ) :
    get_route_index_and_target current routes direction =
      get_route_index_and_target current routes' direction := by
  rw [get_route_index_and_target, get_route_index_and_target,
    pySorted_eq_of_perm h]

theorem execute_navigation_routes_perm {routes routes' : List String}
    (h : routes.Perm routes') (cur : Option String) (conn : Bool)
    (contents : List (String × Option String)) (direction : ℤ) :
    execute_navigation ⟨cur, routes, conn, contents⟩ direction =
      execute_navigation ⟨cur, routes', conn, contents⟩ direction := by
  by_cases hnil : routes = []
  · have hnil' : routes' = [] := ((hnil ▸ h).symm).eq_nil
    rw [hnil, hnil']
  · have hnil' : routes' ≠ [] := fun hh => hnil ((hh ▸ h).eq_nil)
    have hne : routes.isEmpty = false := by
      cases routes with
      | nil => exact absurd rfl hnil
      | cons a l => rfl
    have hne' : routes'.isEmpty = false := by
      cases routes' with
      | nil => exact absurd rfl hnil'
      | cons a l => rfl
    rw [execute_navigation, execute_navigation, validate_routes_available,
      validate_routes_available]
    dsimp only
    simp only [hne, hne', Bool.false_eq_true, if_false]
    rcases hcur : (if cur = some "" then none else cur) with _ | current
    · rfl
    · dsimp only
      rw [get_route_index_and_target_perm h]
      rfl

/-- Claim C5: with routes /a, /b, /c (in any insertion order) and a live
connection, next from /b goes to /c and previous from /b goes to /a; next
at /c fails with the already-at-the-last-slide error and previous at /a
fails with the already-at-the-first-slide error; and next/previous
navigation is invariant under permutation of the stored route list, because
the routes are sorted lexicographically before adjacency is computed. -/
theorem C5_theorem :
    (execute_navigation ⟨some "/b", ["/a", "/b", "/c"], true, []⟩ 1 =
      (create_success_result "Successfully navigated to next slide: /c",
        [ProviderEffect.gotoRoute "/c"])) ∧
    (execute_navigation ⟨some "/b", ["/a", "/b", "/c"], true, []⟩ (-1) =
      (create_success_result "Successfully navigated to previous slide: /a",
        [ProviderEffect.gotoRoute "/a"])) ∧
    (execute_navigation ⟨some "/c", ["/a", "/b", "/c"], true, []⟩ 1 =
      (ToolResult.fail "Already at the last slide. Cannot navigate to next slide.",
        [])) ∧
    (execute_navigation ⟨some "/a", ["/a", "/b", "/c"], true, []⟩ (-1) =
      (ToolResult.fail "Already at the first slide. Cannot navigate to previous slide.",
        [])) ∧
    ∀ (routes routes' : List String), routes.Perm routes' →
      ∀ (cur : Option String) (conn : Bool) (contents : List (String × Option String))
        (direction : ℤ),
        execute_navigation ⟨cur, routes, conn, contents⟩ direction =
          execute_navigation ⟨cur, routes', conn, contents⟩ direction := by
  refine ⟨by decide, by decide, by decide, by decide, ?_⟩
  intro routes routes' h cur conn contents direction
  exact execute_navigation_routes_perm h cur conn contents direction

theorem C5_witness :
    execute_navigation ⟨some "/b", ["/a", "/b", "/c"], true, []⟩ 1 =
      execute_navigation ⟨some "/b", ["/c", "/a", "/b"], true, []⟩ 1 :=
  C5_theorem.2.2.2.2 ["/a", "/b", "/c"] ["/c", "/a", "/b"] (by decide)
    (some "/b") true [] 1

/-! ## Claim C6 -/

def Event.isModelCall : Event → Bool
  | .modelCall _ _ => true
  | _ => false

def Event.isToolExec : Event → Bool
  | .toolExec _ => true
  | _ => false

theorem run_loop_one (o : Oracles) (localTime : ℚ) (k : Nat) (conv : List LLMMessage) :
    run_loop o localTime 1 k conv =
      if check_concurrency_conflict (o.globalAt k) localTime then
        [Event.modelCall (conv ++ [max_tools_note]) false, Event.conflictCheck k true,
          Event.respond ""]
      else
        Event.modelCall (conv ++ [max_tools_note]) false ::
          Event.conflictCheck k false :: final_events o localTime (k + 1) := by
  show run_loop o localTime (0 + 1) k conv = _
  rw [run_loop]
  dsimp only
  rw [iteration_conversation, functions_enabled]
  simp

/-- Claim C6: with max_thoughts = 1 the loop makes exactly one model call,
that call is made with no tool catalog and with the maximum-tool-usage
system note as the last message of the conversation it receives, and no
tool is ever executed, whatever tool calls the model requests. -/
theorem C6_theorem (o : Oracles) (systemPrompt transcription slideContext
    elapsedTimeContext hintContext : String) (history : List LLMMessage)
    (text : String) (localTime : ℚ) :
    (handle_text_events o systemPrompt transcription slideContext elapsedTimeContext
        hintContext history text 1 localTime).countP Event.isModelCall = 1 ∧
    (handle_text_events o systemPrompt transcription slideContext elapsedTimeContext
        hintContext history text 1 localTime).countP Event.isToolExec = 0 ∧
    ∀ c f, Event.modelCall c f ∈ handle_text_events o systemPrompt transcription
        slideContext elapsedTimeContext hintContext history text 1 localTime →
      f = false ∧ c.getLast? = some max_tools_note := by
  rw [handle_text_events, run_loop_one]
  by_cases hc : check_concurrency_conflict (o.globalAt 0) localTime = true
  · rw [if_pos hc]
    refine ⟨?_, ?_, ?_⟩
    · simp [List.countP_cons, List.countP_nil, Event.isModelCall, Event.isToolExec]
    · simp [List.countP_cons, List.countP_nil, Event.isModelCall, Event.isToolExec]
    · intro c f hm
      simp only [List.mem_cons, List.not_mem_nil, or_false] at hm
      rcases hm with hm | hm | hm
      · obtain ⟨hcv, hf⟩ := (Event.modelCall.injEq _ _ _ _).mp hm
        exact ⟨hf, by rw [hcv]; exact List.getLast?_concat _⟩
      · exact absurd hm (by simp)
      · exact absurd hm (by simp)
  · rw [if_neg hc, final_events]
    refine ⟨?_, ?_, ?_⟩
    · simp [List.countP_cons, List.countP_nil, Event.isModelCall, Event.isToolExec]
    · simp [List.countP_cons, List.countP_nil, Event.isModelCall, Event.isToolExec]
    · intro c f hm
      simp only [List.mem_cons, List.not_mem_nil, or_false] at hm
      rcases hm with hm | hm | hm | hm
      · obtain ⟨hcv, hf⟩ := (Event.modelCall.injEq _ _ _ _).mp hm
        exact ⟨hf, by rw [hcv]; exact List.getLast?_concat _⟩
      · exact absurd hm (by simp)
      · exact absurd hm (by simp)
      · exact absurd hm (by simp)

theorem C6_witness :
    false = false ∧
      ([LLMMessage.system "sc", LLMMessage.system "et", LLMMessage.system "hc",
        LLMMessage.user "hi", max_tools_note] : List LLMMessage).getLast? =
        some max_tools_note :=
  (C6_theorem (Oracles.mk (fun _ _ => ⟨"", []⟩) (fun _ _ => .ok ⟨true, none, none⟩)
      (fun _ => 1) none) "" "" "sc" "et" "hc" [] "hi" 0).2.2
    [LLMMessage.system "sc", LLMMessage.system "et", LLMMessage.system "hc",
      LLMMessage.user "hi", max_tools_note] false (by decide)

/-! ## Claim C7 -/

/-- Claim C7: starting from the empty history, after any sequence of hint
additions at most 50 entries are retained; after exactly 60 additions the
retained entries are precisely the 50 most recent (the first 10 are
evicted); and the hint-usage context block surfaces exactly the 10 most
recently added retained entries, most recent first. -/
theorem C7_theorem (es : List HintEntry) :
    (es.foldl add_hint_to_history []).length ≤ 50 ∧
    (es.length = 60 →
      es.foldl add_hint_to_history [] = es.drop 10 ∧
        (es.foldl add_hint_to_history []).length = 50) ∧
    surfaced_hints (es.foldl add_hint_to_history []) =
      (es.drop (es.length - 10)).reverse := by
  have hfold := foldl_add_hint es [] (by simp)
  simp only [List.nil_append] at hfold
  refine ⟨?_, ?_, ?_⟩
  · rw [hfold]
    simp only [List.length_drop]
    omega
  · intro h60
    constructor
    · rw [hfold, h60]
    · rw [hfold]
      simp only [List.length_drop, h60]
  · rw [hfold, surfaced_hints]
    congr 1
    rw [List.drop_drop]
    congr 1
    simp only [List.length_drop]
    omega

theorem C7_witness :
    (List.replicate 60 (HintEntry.mk "h" "t" 0 "s")).foldl add_hint_to_history [] =
        (List.replicate 60 (HintEntry.mk "h" "t" 0 "s")).drop 10 ∧
      ((List.replicate 60 (HintEntry.mk "h" "t" 0 "s")).foldl
        add_hint_to_history []).length = 50 :=
  (C7_theorem (List.replicate 60 (HintEntry.mk "h" "t" 0 "s"))).2.1 (by simp)

/-! ## Claim C8 -/

/-- Claim C8 counterexample.  A maximal run consisting of a single user
message is returned unchanged by the code (the early return of
_create_concatenated_user_message for a one-element list), so its text is
not stripped: on a lone user turn with text padded by spaces the collapse
leaves the padding, while the claim as stated requires the stripped text. -/
theorem C8_counterexample :
    concatenate_consecutive_user_messages
        [LLMMessage.system "s", LLMMessage.user " Hello ", LLMMessage.system "t"] =
      [LLMMessage.system "s", LLMMessage.user " Hello ", LLMMessage.system "t"] ∧
    pyStrip " Hello " = "Hello" ∧
    concatenate_consecutive_user_messages
        [LLMMessage.system "s", LLMMessage.user " Hello ", LLMMessage.system "t"] ≠
      [LLMMessage.system "s", LLMMessage.user (pyStrip " Hello "),
        LLMMessage.system "t"] := by
  refine ⟨by decide, by decide, by decide⟩

/-- Claim C8 (amended): collapsing replaces every maximal run of two or
more consecutive user messages with the single concatenated user message
(the truthy text contents of the run, stripped, joined by blank lines),
leaves a maximal run of exactly one user message unchanged (its text is
not stripped), and preserves all non-user messages and the overall order;
in particular three consecutive user turns Hello, there, friend collapse
into the single turn with a blank line between the fragments. -/
theorem C8_theorem :
    (∀ msgs, concatenate_consecutive_user_messages msgs = collapse_by_runs msgs) ∧
    concatenate_consecutive_user_messages
        [LLMMessage.user "Hello", LLMMessage.user "there", LLMMessage.user "friend"] =
      [LLMMessage.user "Hello\n\nthere\n\nfriend"] :=
  ⟨concatenate_eq_collapse, by decide⟩

/-! ## Claims C9 and C10 -/

theorem validate_missing (params : List (String × PValue)) (name : String)
    (ty : PType) (h : params.lookup name = none) :
    validate_required_parameter params name ty =
      some (ToolResult.fail ("Missing required parameter: " ++ name)) := by
  rw [validate_required_parameter, h]

theorem validate_wrong_type (params : List (String × PValue)) (name : String)
    (ty : PType) (v : PValue) (hv : params.lookup name = some v)
    (hty : v.isinstance ty = false) :
    validate_required_parameter params name ty =
      some (ToolResult.fail
        ("Parameter \x27" ++ name ++ "\x27 must be a " ++ ty.typeName)) := by
  rw [validate_required_parameter, hv]
  simp [hty]

theorem execute_goto_slide_validation (st : ManagerState)
    (params : List (String × PValue)) (err : ToolResult)
    (h : validate_required_parameter params "route" PType.str = some err) :
    execute_goto_slide st params = (err, []) := by
  rw [execute_goto_slide, h]

theorem execute_say_validation (params : List (String × PValue)) (err : ToolResult)
    (h : validate_required_parameter params "text" PType.str = some err) :
    execute_say params = (err, []) := by
  rw [execute_say, h]

theorem execute_hint_validation (st : ManagerState)
    (params : List (String × PValue)) (err : ToolResult)
    (h : validate_required_parameter params "text" PType.str = some err) :
    execute_hint st params = (err, []) := by
  rw [execute_hint, h]

/-- Claim C9: for each of the three tools with a required string parameter
(goto_slide with route, say with text, hint with text) the dispatcher
returns the structured failure with the exact missing-parameter message
when the parameter is absent, and the exact wrong-type message when it is
present with a non-string value; in both cases no effect is produced and
nothing is raised (the dispatcher is a total function). -/
theorem C9_theorem (st : ManagerState) (params : List (String × PValue)) :
    ((params.lookup "route" = none →
        execute_tool st "goto_slide" params =
          (ToolResult.fail "Missing required parameter: route", [])) ∧
      ∀ v, params.lookup "route" = some v → v.isinstance PType.str = false →
        execute_tool st "goto_slide" params =
          (ToolResult.fail "Parameter \x27route\x27 must be a str", [])) ∧
    ((params.lookup "text" = none →
        execute_tool st "say" params =
          (ToolResult.fail "Missing required parameter: text", [])) ∧
      ∀ v, params.lookup "text" = some v → v.isinstance PType.str = false →
        execute_tool st "say" params =
          (ToolResult.fail "Parameter \x27text\x27 must be a str", [])) ∧
    ((params.lookup "text" = none →
        execute_tool st "hint" params =
          (ToolResult.fail "Missing required parameter: text", [])) ∧
      ∀ v, params.lookup "text" = some v → v.isinstance PType.str = false →
        execute_tool st "hint" params =
          (ToolResult.fail "Parameter \x27text\x27 must be a str", [])) := by
  have hgoto : execute_tool st "goto_slide" params = execute_goto_slide st params := rfl
  have hsay : execute_tool st "say" params = execute_say params := rfl
  have hhint : execute_tool st "hint" params = execute_hint st params := rfl
  refine ⟨⟨fun h => ?_, fun v hv hty => ?_⟩, ⟨fun h => ?_, fun v hv hty => ?_⟩,
    ⟨fun h => ?_, fun v hv hty => ?_⟩⟩
  · rw [hgoto, execute_goto_slide_validation st params _ (validate_missing params _ _ h)]
    rfl
  · rw [hgoto, execute_goto_slide_validation st params _
      (validate_wrong_type params _ _ v hv hty)]
    rfl
  · rw [hsay, execute_say_validation params _ (validate_missing params _ _ h)]
    rfl
  · rw [hsay, execute_say_validation params _
      (validate_wrong_type params _ _ v hv hty)]
    rfl
  · rw [hhint, execute_hint_validation st params _ (validate_missing params _ _ h)]
    rfl
  · rw [hhint, execute_hint_validation st params _
      (validate_wrong_type params _ _ v hv hty)]
    rfl

theorem C9_witness :
    execute_tool (ManagerState.mk none [] false []) "goto_slide" [] =
        (ToolResult.fail "Missing required parameter: route", []) ∧
      execute_tool (ManagerState.mk none [] false []) "say"
          [("text", PValue.pint 3)] =
        (ToolResult.fail "Parameter \x27text\x27 must be a str", []) :=
  ⟨(C9_theorem (ManagerState.mk none [] false []) []).1.1 rfl,
    (C9_theorem (ManagerState.mk none [] false [])
      [("text", PValue.pint 3)]).2.1.2 (PValue.pint 3) rfl rfl⟩

/-- Claim C10: the tool catalog exposes exactly the six tools, and for any
tool name outside it the dispatcher returns the structured unknown-tool
failure with no effect and without raising (it is a total function). -/
theorem C10_theorem :
    list_tools.map Tool.name =
      ["goto_slide", "next_slide", "previous_slide", "say", "hint",
        "get_all_slide_details"] ∧
    ∀ (st : ManagerState) (toolName : String) (params : List (String × PValue)),
      toolName ∉ list_tools.map Tool.name →
      execute_tool st toolName params =
        (ToolResult.fail ("Unknown tool: " ++ toolName), []) := by
  have hmap : list_tools.map Tool.name =
      ["goto_slide", "next_slide", "previous_slide", "say", "hint",
        "get_all_slide_details"] := rfl
  refine ⟨hmap, fun st toolName params h => ?_⟩
  rw [hmap] at h
  simp only [List.mem_cons, List.not_mem_nil, or_false, not_or] at h
  obtain ⟨h1, h2, h3, h4, h5, h6⟩ := h
  rw [execute_tool, if_neg h1, if_neg h2, if_neg h3, if_neg h4, if_neg h5, if_neg h6]

theorem C10_witness :
    execute_tool (ManagerState.mk none [] false []) "bogus" [] =
      (ToolResult.fail ("Unknown tool: " ++ "bogus"), []) :=
  C10_theorem.2 (ManagerState.mk none [] false []) "bogus" [] (by decide)

end Presenter
